import Mathlib

/-!
# crossplane-argocd-sync-gkecluster: the add-event handler of `main.go`

A shallow embedding of `src/main.go`: the informer's `AddFunc`, the key dispatch
over the secret payload, the construction of the Argo CD cluster secret, and
`namespace()`.

Conventions of the embedding.

* `[]byte` is `Bytes` (a list of octets).  Go text that is produced by the program
  (`ClusterName`, `CaData`, the JSON document, object names) is a `String`; the
  conversion `[]byte(s)` is the UTF-8 encoding `utf8 s`.  The local `server`, which only
  ever holds `string(v)` and is only ever converted back with `[]byte(server)`, is kept as
  the octets it carries.
* A Go `map` is an association list with pairwise distinct keys.  Each execution of
  `for k, v := range data` may visit the entries in a different order, so the handler
  receives, for the `i`-th execution of the loop, the order `visit i` in which the
  entries are seen.
* Library routines the program calls are modelled next to the code: base64
  (`encoding/base64`, RFC 4648), `json.Marshal` on the three record structs
  (`encoding/json`), `strings.TrimSpace`.  `yaml.Unmarshal` is a parameter of the
  handler.
* The handler has no return value; what it does is recorded as the list of effects it
  performs, in order.
-/

namespace ArgoSync

/-- Octet strings: Go's `[]byte`. -/
abbrev Bytes := List UInt8

/-- The conversion `[]byte(s)` of a text: its UTF-8 encoding. -/
def utf8 (s : String) : Bytes := s.toUTF8.data.toList

/-! ## Data model (`main.go`, lines 24-65) -/

/-- Go: `type TLSClientConfig struct` with its zero value as default. -/
structure TLSClientConfig where
  Insecure : Bool := false
  CaData : String := ""
  deriving DecidableEq, Repr

/-- Go: `type AuthConfig struct`. -/
structure AuthConfig where
  ClusterName : String := ""
  deriving DecidableEq, Repr

/-- Go: `type ArgoConfig struct`; `ArgoConfig{}` is `{}`. -/
structure ArgoConfig where
  BearerToken : String := ""
  TLSClientConfig : TLSClientConfig := {}
  AuthConfig : AuthConfig := {}
  deriving DecidableEq, Repr

/-- An element of `KubeConfig.Clusters`. -/
structure KubeCluster where
  CertificateAuthorityData : String := ""
  Server : String := ""
  Name : String := ""
  deriving DecidableEq, Repr

/-- An element of `KubeConfig.Contexts`. -/
structure KubeContext where
  Cluster : String := ""
  User : String := ""
  Name : String := ""
  deriving DecidableEq, Repr

/-- An element of `KubeConfig.Users`. -/
structure KubeUser where
  Name : String := ""
  Token : String := ""
  deriving DecidableEq, Repr

/-- Go: `type KubeConfig struct` (the empty `Preferences` struct carries no data). -/
structure KubeConfig where
  APIVersion : String := ""
  Clusters : List KubeCluster := []
  Contexts : List KubeContext := []
  CurrentContext : String := ""
  Kind : String := ""
  Users : List KubeUser := []
  deriving DecidableEq, Repr

/-- The fields of `metav1.OwnerReference` the handler reads. -/
structure OwnerReference where
  Kind : String
  Name : String
  deriving DecidableEq, Repr

/-- Go: `metav1.TypeMeta`. -/
structure TypeMeta where
  Kind : String := ""
  APIVersion : String := ""
  deriving DecidableEq, Repr

/-- The fields of `metav1.ObjectMeta` the program reads or sets. -/
structure ObjectMeta where
  Name : String := ""
  Namespace : String := ""
  Annotations : List (String × String) := []
  Labels : List (String × String) := []
  OwnerReferences : List OwnerReference := []
  deriving DecidableEq, Repr

/-- The fields of `v1.Secret` the program reads or sets. -/
structure Secret where
  TypeMeta : TypeMeta := {}
  ObjectMeta : ObjectMeta := {}
  Data : List (String × Bytes) := []
  Type_ : String := ""
  deriving DecidableEq, Repr

/-! ## `encoding/base64`: `StdEncoding.EncodeToString` -/

/-- The alphabet of `base64.StdEncoding`. -/
def encodeStd : List Char :=
  "ABCDEFGHIJKLMNOPQRSTUVWXYZabcdefghijklmnopqrstuvwxyz0123456789+/".data

/-- The alphabet character of a six-bit value. -/
def b64Char (n : Nat) : Char := encodeStd.getD (n % 64) 'A'

/-- The encoder's loop: three octets give four characters; a final group of one or two
octets is padded with `=` (`StdPadding`). -/
def encodeChunks : Bytes → List Char
  | b0 :: b1 :: b2 :: rest =>
    let val := b0.toNat * 65536 + b1.toNat * 256 + b2.toNat
    b64Char (val / 262144) :: b64Char (val / 4096) :: b64Char (val / 64) :: b64Char val
      :: encodeChunks rest
  | [b0, b1] =>
    let val := b0.toNat * 65536 + b1.toNat * 256
    [b64Char (val / 262144), b64Char (val / 4096), b64Char (val / 64), '=']
  | [b0] =>
    let val := b0.toNat * 65536
    [b64Char (val / 262144), b64Char (val / 4096), '=', '=']
  | [] => []

/-- Go: `b64.StdEncoding.EncodeToString(v)`. -/
def EncodeToString (v : Bytes) : String := ⟨encodeChunks v⟩

/-! ## `encoding/json`: `json.Marshal` on the record structs -/

/-- JSON documents of the shape `json.Marshal` produces for the record structs: strings,
booleans, and objects whose members keep the order of the struct fields. -/
inductive JSON where
  | str (s : String)
  | bool (b : Bool)
  | obj (members : List (String × JSON))

/-- Lower-case hexadecimal digit, as in the encoder's `hex` table. -/
def hexDigit (n : Nat) : Char := "0123456789abcdef".data.getD (n % 16) '0'

/-- The six characters of a `\uXXXX` escape. -/
def uEscape (n : Nat) : List Char :=
  [Char.ofNat 92, 'u', hexDigit (n / 4096), hexDigit (n / 256), hexDigit (n / 16), hexDigit n]

/-- How the encoder writes one character of a string, with HTML escaping on (the setting
of `json.Marshal`): the quote and the backslash get a backslash, newline, carriage return
and tab their short escapes, the other control characters and `<`, `>`, `&` a `\u00XX`
escape, U+2028 and U+2029 a `\uXXXX` escape, everything else is copied.  (Backspace and
form feed are written `\u0008` and `\u000c`, as the Go releases before 1.22 do; nothing
proved below depends on it.) -/
def escapeRune (c : Char) : List Char :=
  let n := c.toNat
  if n = 34 ∨ n = 92 then [Char.ofNat 92, c]
  else if n = 10 then [Char.ofNat 92, 'n']
  else if n = 13 then [Char.ofNat 92, 'r']
  else if n = 9 then [Char.ofNat 92, 't']
  else if n < 32 ∨ n = 60 ∨ n = 62 ∨ n = 38 then uEscape n
  else if n = 8232 ∨ n = 8233 then uEscape n
  else [c]

/-- A Go string as a JSON string literal. -/
def marshalString (s : String) : String :=
  ⟨Char.ofNat 34 :: (s.data.flatMap escapeRune ++ [Char.ofNat 34])⟩

mutual
/-- The text of a JSON document, compact as `json.Marshal` writes it. -/
def JSON.render : JSON → String
  | .str s => marshalString s
  | .bool b => if b then "true" else "false"
  | .obj members => "\x7b" ++ renderMembers members ++ "\x7d"
/-- The members of an object, comma separated. -/
def renderMembers : List (String × JSON) → String
  | [] => ""
  | [(k, v)] => marshalString k ++ ":" ++ v.render
  | (k, v) :: m :: rest => marshalString k ++ ":" ++ v.render ++ "," ++ renderMembers (m :: rest)
end

/-- The struct tags of `TLSClientConfig`: `json:"insecure"`, `json:"caData"`. -/
def TLSClientConfig.toJSON (t : TLSClientConfig) : JSON :=
  .obj [("insecure", .bool t.Insecure), ("caData", .str t.CaData)]

/-- The struct tag of `AuthConfig`: `json:"clusterName"`. -/
def AuthConfig.toJSON (a : AuthConfig) : JSON :=
  .obj [("clusterName", .str a.ClusterName)]

/-- The struct tags of `ArgoConfig`: `json:"bearerToken"`, `json:"tlsClientConfig"`,
`json:"AuthConfig"`. -/
def ArgoConfig.toJSON (c : ArgoConfig) : JSON :=
  .obj [("bearerToken", .str c.BearerToken),
        ("tlsClientConfig", c.TLSClientConfig.toJSON),
        ("AuthConfig", c.AuthConfig.toJSON)]

/-- Go: `json.Marshal(argoConfig)`.  For a struct of strings and booleans the encoder has
no error case, so the `err != nil` branch of the handler is never taken. -/
def Marshal (argoConfig : ArgoConfig) : String := argoConfig.toJSON.render

/-- The member of an object with exactly the given key. -/
def JSON.member (k : String) : JSON → Option JSON
  | .obj members => members.lookup k
  | _ => none

/-- The keys of an object, in order. -/
def JSON.keys : JSON → List String
  | .obj members => members.map Prod.fst
  | _ => []

/-! ## `strings.TrimSpace` and `namespace()` -/

/-- Go: `unicode.IsSpace`. -/
def isSpace (c : Char) : Bool :=
  let n := c.toNat
  (9 ≤ n && n ≤ 13) || n = 32 || n = 133 || n = 160 || n = 5760 ||
    (8192 ≤ n && n ≤ 8202) || n = 8232 || n = 8233 || n = 8239 || n = 8287 || n = 12288

/-- Go: `strings.TrimSpace`: leading and trailing white space removed. -/
def TrimSpace (s : String) : String :=
  ⟨(s.data.dropWhile isSpace).rdropWhile isSpace⟩

/-- What `namespace()` reads from its surroundings: the result of
`os.LookupEnv("POD_NAMESPACE")` (`none` when the variable is unset) and the result of
reading `/var/run/secrets/kubernetes.io/serviceaccount/namespace` (`none` when the read
fails). -/
structure Env where
  POD_NAMESPACE : Option String := none
  serviceAccountNamespace : Option String := none
  deriving DecidableEq, Repr

/-- Go: `func namespace() string`. -/
def namespace_ (env : Env) : String :=
  match env.POD_NAMESPACE with
  | some ns => ns
  | none =>
    match env.serviceAccountNamespace with
    | some data =>
      let ns := TrimSpace data
      if 0 < ns.length then ns else "default"
    | none => "default"

/-! ## The add-event handler (`main.go`, lines 91-263) -/

/-- What the handler does that is visible outside it.  `create` is the store write
`Secrets("argocd").Create(&secret)`. -/
inductive Effect where
  | logFound (ownerName : String)
  | printErr (err : String)
  | logSecret (secret : Secret)
  | create (secret : Secret)
  deriving DecidableEq, Repr

/-- The locals the payload loop assigns: `argoConfig` and `server`. -/
structure Locals where
  argoConfig : ArgoConfig := {}
  server : Bytes := []
  deriving DecidableEq, Repr

/-- One iteration of `for k, v := range data`: the `switch k`.  `Except.error` is the
`return` after a failed `yaml.Unmarshal`. -/
def dataStep (Unmarshal : Bytes → Except String KubeConfig) (st : Locals)
    (kv : String × Bytes) : Except String Locals :=
  if kv.1 = "kubeconfig" then
    match Unmarshal kv.2 with
    | .error err => .error err
    | .ok kubeConfig =>
      .ok { st with argoConfig :=
              { st.argoConfig with AuthConfig := { ClusterName := kubeConfig.CurrentContext } } }
  else if kv.1 = "clusterCA" then
    let b64 := EncodeToString kv.2
    .ok { st with argoConfig :=
            { st.argoConfig with TLSClientConfig := { CaData := b64, Insecure := false } } }
  else if kv.1 = "endpoint" then
    .ok { st with server := kv.2 }
  else
    .ok st

/-- The loop `for k, v := range data` over the entries in the order they are visited. -/
def dataLoop (Unmarshal : Bytes → Except String KubeConfig) :
    List (String × Bytes) → Locals → Except String Locals
  | [], st => .ok st
  | kv :: rest, st =>
    match dataStep Unmarshal st kv with
    | .error err => .error err
    | .ok st' => dataLoop Unmarshal rest st'

/-- The derived identifier: `"gke-" + argoConfig.AuthConfig.ClusterName`. -/
def argoClusterName (argoConfig : ArgoConfig) : String :=
  "gke-" ++ argoConfig.AuthConfig.ClusterName

/-- The `v1.Secret` literal of lines 137-158. -/
def buildSecret (env : Env) (argoConfig : ArgoConfig) (server : Bytes) : Secret :=
  { TypeMeta := { Kind := "Secret", APIVersion := "v1" }
    ObjectMeta :=
      { Name := namespace_ env ++ "-" ++ argoConfig.AuthConfig.ClusterName
        Namespace := "argocd"
        Annotations := [("managed-by", "argocd.argoproj.io")]
        Labels := [("argocd.argoproj.io/secret-type", "cluster")] }
    Data := [("config", utf8 (Marshal argoConfig)),
             ("name", utf8 (argoClusterName argoConfig)),
             ("server", server)]
    Type_ := "Opaque" }

/-- The loop `for _, o := range secret.OwnerReferences`.  `i` counts the executions of
the payload loop so far; `rangeOrder i` is the order in which the `i`-th execution visits
the entries of the map.  The result stops at the `return` of a failed decode. -/
def ownerLoop (env : Env) (Unmarshal : Bytes → Except String KubeConfig)
    (rangeOrder : Nat → List (String × Bytes) → List (String × Bytes))
    (data : List (String × Bytes)) : Nat → List OwnerReference → List Effect
  | _, [] => []
  | i, o :: rest =>
    if o.Kind = "GKECluster" then
      Effect.logFound o.Name ::
        match dataLoop Unmarshal (rangeOrder i data) {} with
        | .error err => [Effect.printErr err]
        | .ok st =>
          Effect.logSecret (buildSecret env st.argoConfig st.server) ::
            ownerLoop env Unmarshal rangeOrder data (i + 1) rest
    else
      ownerLoop env Unmarshal rangeOrder data i rest

/-- Go: the `AddFunc` of the informer's event handler, applied to the new secret. -/
def AddFunc (env : Env) (Unmarshal : Bytes → Except String KubeConfig)
    (rangeOrder : Nat → List (String × Bytes) → List (String × Bytes))
    (new : Secret) : List Effect :=
  ownerLoop env Unmarshal rangeOrder new.Data 0 new.ObjectMeta.OwnerReferences

/-- The output records the handler constructed (each is logged right after). -/
def built : List Effect → List Secret
  | [] => []
  | Effect.logSecret s :: rest => s :: built rest
  | _ :: rest => built rest

/-- The store writes the handler attempted. -/
def storeWrites : List Effect → List Secret
  | [] => []
  | Effect.create s :: rest => s :: storeWrites rest
  | _ :: rest => storeWrites rest

/-- A payload is a map: its keys are pairwise distinct. -/
def DistinctKeys (data : List (String × Bytes)) : Prop := (data.map Prod.fst).Nodup

instance (data : List (String × Bytes)) : Decidable (DistinctKeys data) := by
  unfold DistinctKeys; infer_instance

/-- Every execution of the payload loop visits each entry of the map once. -/
def VisitsAll (rangeOrder : Nat → List (String × Bytes) → List (String × Bytes)) : Prop :=
  ∀ i data, (rangeOrder i data).Perm data

/-- Some owner reference has kind `GKECluster`. -/
def Matched (new : Secret) : Prop :=
  ∃ o ∈ new.ObjectMeta.OwnerReferences, o.Kind = "GKECluster"

/-- The number of owner references of kind `GKECluster`. -/
def matchCount (new : Secret) : Nat :=
  new.ObjectMeta.OwnerReferences.countP (fun o => o.Kind = "GKECluster")

/-! ## The payload loop read off the map -/

/-- The locals once every entry of `l` has been dispatched, the cluster name being
`name`: `clusterCA` and `endpoint` overwrite their field when present. -/
def afterLoop (l : List (String × Bytes)) (st : Locals) (name : String) : Locals :=
  { argoConfig :=
      { BearerToken := st.argoConfig.BearerToken
        TLSClientConfig :=
          match l.lookup "clusterCA" with
          | some B => { CaData := EncodeToString B, Insecure := false }
          | none => st.argoConfig.TLSClientConfig
        AuthConfig := { ClusterName := name } }
    server :=
      match l.lookup "endpoint" with
      | some v => v
      | none => st.server }

/-- The outcome of the payload loop in terms of the map's three recognised keys. -/
def loopResult (Unmarshal : Bytes → Except String KubeConfig) (l : List (String × Bytes))
    (st : Locals) : Except String Locals :=
  match l.lookup "kubeconfig" with
  | some v =>
    match Unmarshal v with
    | .error err => .error err
    | .ok kubeConfig => .ok (afterLoop l st kubeConfig.CurrentContext)
  | none => .ok (afterLoop l st st.argoConfig.AuthConfig.ClusterName)

/-- The payload's `kubeconfig` entry is absent, or present and decoded by
`yaml.Unmarshal`. -/
def KubeconfigAbsentOrDecodes (Unmarshal : Bytes → Except String KubeConfig)
    (data : List (String × Bytes)) : Prop :=
  data.lookup "kubeconfig" = none ∨
    ∃ v kubeConfig, data.lookup "kubeconfig" = some v ∧ Unmarshal v = .ok kubeConfig

/-- Spec, section 4.2: the cluster name is the current context of the decoded
`kubeconfig` entry, and stays empty when the entry is absent. -/
def specClusterName (Unmarshal : Bytes → Except String KubeConfig)
    (data : List (String × Bytes)) : String :=
  match data.lookup "kubeconfig" with
  | some v =>
    match Unmarshal v with
    | .ok kubeConfig => kubeConfig.CurrentContext
    | .error _ => ""
  | none => ""

/-- Spec, section 4.2: the CA data is the base64 text of the `clusterCA` entry, and stays
empty when the entry is absent. -/
def specCaData (data : List (String × Bytes)) : String :=
  match data.lookup "clusterCA" with
  | some B => EncodeToString B
  | none => ""

/-- Spec, section 4.2: the server address is the `endpoint` entry as it is, and stays
empty when the entry is absent. -/
def specServer (data : List (String × Bytes)) : Bytes :=
  match data.lookup "endpoint" with
  | some v => v
  | none => []

/-- Spec, section 3: the credential record of a payload, with the bearer token not
populated and the insecure flag off. -/
def specConfig (Unmarshal : Bytes → Except String KubeConfig)
    (data : List (String × Bytes)) : ArgoConfig :=
  { BearerToken := ""
    TLSClientConfig := { Insecure := false, CaData := specCaData data }
    AuthConfig := { ClusterName := specClusterName Unmarshal data } }

/-! ## Example inputs -/

/-- A connection document whose current context is `prod`. -/
def prodYaml : Bytes := utf8 "current-context: prod\n"

/-- A connection document whose current context is `my-cluster`. -/
def myClusterYaml : Bytes :=
  utf8 "apiVersion: v1\ncurrent-context: my-cluster\nkind: Config\n"

/-- A document that is not well-formed YAML (an unclosed flow sequence). -/
def brokenYaml : Bytes := utf8 "current-context: [\n"

/-- A decoder for the examples: it gives what `yaml.Unmarshal` gives on `prodYaml` and
`myClusterYaml`, and rejects every other document. -/
def sampleUnmarshal (v : Bytes) : Except String KubeConfig :=
  if v = prodYaml then .ok { CurrentContext := "prod" }
  else if v = myClusterYaml then
    .ok { APIVersion := "v1", CurrentContext := "my-cluster", Kind := "Config" }
  else .error "error converting YAML to JSON"

/-- An iteration order that changes from one execution of the loop to the next. -/
def alternating (i : Nat) (data : List (String × Bytes)) : List (String × Bytes) :=
  if i % 2 = 0 then data else data.reverse

/-- The end-to-end scenario of the spec: owner `GKECluster`/`cluster-a`, a `kubeconfig`
with current context `prod`, `clusterCA` 0xAA 0xBB, `endpoint` `https://10.0.0.1`. -/
def e2eSecret : Secret :=
  { ObjectMeta := { OwnerReferences := [⟨"GKECluster", "cluster-a"⟩] }
    Data := [("kubeconfig", prodYaml), ("clusterCA", [0xAA, 0xBB]),
             ("endpoint", utf8 "https://10.0.0.1")] }

/-- A secret owned by another kind, with a malformed `kubeconfig`. -/
def otherKindSecret : Secret :=
  { ObjectMeta := { OwnerReferences := [⟨"OtherKind", "cluster-a"⟩] }
    Data := [("kubeconfig", brokenYaml), ("endpoint", utf8 "https://10.0.0.1")] }

/-- A matched secret whose `kubeconfig` does not decode, among other keys. -/
def brokenSecret : Secret :=
  { ObjectMeta := { OwnerReferences := [⟨"OtherKind", "x"⟩, ⟨"GKECluster", "cluster-b"⟩,
                                         ⟨"GKECluster", "cluster-c"⟩] }
    Data := [("clusterCA", [0xAA, 0xBB]), ("endpoint", utf8 "https://10.0.0.1"),
             ("kubeconfig", brokenYaml), ("extra", [1, 2, 3])] }

/-- A matched secret whose `kubeconfig` has current context `my-cluster`. -/
def myClusterSecret : Secret :=
  { ObjectMeta := { OwnerReferences := [⟨"OtherKind", "x"⟩, ⟨"GKECluster", "cluster-d"⟩] }
    Data := [("endpoint", utf8 "https://10.0.0.2"), ("kubeconfig", myClusterYaml)] }

/-- A matched secret without a `kubeconfig` entry. -/
def noKubeconfigSecret : Secret :=
  { ObjectMeta := { OwnerReferences := [⟨"GKECluster", "cluster-e"⟩] }
    Data := [("clusterCA", [0xAA, 0xBB]), ("note", [104, 105])] }

/-- A secret with two owners of kind `GKECluster` and one of another kind. -/
def twoOwnersSecret : Secret :=
  { ObjectMeta := { OwnerReferences := [⟨"GKECluster", "cluster-f"⟩, ⟨"OtherKind", "x"⟩,
                                         ⟨"GKECluster", "cluster-g"⟩] }
    Data := [("kubeconfig", prodYaml), ("endpoint", utf8 "https://10.0.0.1")] }

/-- A surrounding in which only the service-account file is present. -/
def fileEnv : Env := { serviceAccountNamespace := some "  team-a\n" }

/-! ## Lemmas -/

theorem lookup_none_of_not_key {l : List (String × Bytes)} {k : String}
    (h : k ∉ l.map Prod.fst) : l.lookup k = none := by
  induction l with
  | nil => rfl
  | cons p l ih =>
    obtain ⟨k', v⟩ := p
    simp only [List.map_cons, List.mem_cons, not_or] at h
    have hne : (k == k') = false := by simpa using h.1
    simp [List.lookup, hne, ih h.2]

theorem lookup_cons_ne {l : List (String × Bytes)} {k k' : String} {v : Bytes}
    (h : k ≠ k') : ((k', v) :: l).lookup k = l.lookup k := by
  have hne : (k == k') = false := by simpa using h
  simp [List.lookup, hne]

theorem lookup_cons_self {l : List (String × Bytes)} {k : String} {v : Bytes} :
    ((k, v) :: l).lookup k = some v := by
  simp [List.lookup]

theorem lookup_eq_some_iff_mem {l : List (String × Bytes)} (hd : DistinctKeys l)
    (k : String) (v : Bytes) : l.lookup k = some v ↔ (k, v) ∈ l := by
  induction l with
  | nil => simp
  | cons p l ih =>
    have hd' : DistinctKeys l := (List.nodup_cons.1 hd).2
    have hp : p.1 ∉ l.map Prod.fst := (List.nodup_cons.1 hd).1
    obtain ⟨k', v'⟩ := p
    by_cases hk : k = k'
    · subst hk
      rw [lookup_cons_self]
      constructor
      · intro h
        have : v' = v := by simpa using h
        subst this
        exact List.mem_cons_self _ _
      · intro h
        rcases List.mem_cons.1 h with h | h
        · have : v = v' := by simpa using h
          rw [this]
        · exact absurd (List.mem_map_of_mem Prod.fst h) hp
    · rw [lookup_cons_ne hk, ih hd']
      constructor
      · intro h; exact List.mem_cons_of_mem _ h
      · intro h
        rcases List.mem_cons.1 h with h | h
        · exact absurd (by simpa using (congrArg Prod.fst h)) hk
        · exact h

theorem DistinctKeys.of_perm {l₁ l₂ : List (String × Bytes)} (hp : l₁.Perm l₂)
    (hd : DistinctKeys l₂) : DistinctKeys l₁ :=
  (hp.map Prod.fst).nodup_iff.2 hd

theorem lookup_perm {l₁ l₂ : List (String × Bytes)} (hp : l₁.Perm l₂)
    (hd : DistinctKeys l₂) (k : String) : l₁.lookup k = l₂.lookup k := by
  apply Option.ext
  intro v
  rw [Option.mem_def, Option.mem_def,
    lookup_eq_some_iff_mem (DistinctKeys.of_perm hp hd), lookup_eq_some_iff_mem hd]
  exact hp.mem_iff

theorem loopResult_perm (Unmarshal : Bytes → Except String KubeConfig)
    {l₁ l₂ : List (String × Bytes)} (hp : l₁.Perm l₂) (hd : DistinctKeys l₂) (st : Locals) :
    loopResult Unmarshal l₁ st = loopResult Unmarshal l₂ st := by
  simp only [loopResult, afterLoop, lookup_perm hp hd]

theorem dataStep_kubeconfig (Unmarshal : Bytes → Except String KubeConfig) (st : Locals)
    (v : Bytes) :
    dataStep Unmarshal st ("kubeconfig", v) =
      match Unmarshal v with
      | .error err => .error err
      | .ok kubeConfig =>
        .ok { st with argoConfig :=
                { st.argoConfig with
                  AuthConfig := { ClusterName := kubeConfig.CurrentContext } } } := by
  simp [dataStep]

theorem dataStep_clusterCA (Unmarshal : Bytes → Except String KubeConfig) (st : Locals)
    (v : Bytes) :
    dataStep Unmarshal st ("clusterCA", v) =
      .ok { st with argoConfig :=
              { st.argoConfig with
                TLSClientConfig := { CaData := EncodeToString v, Insecure := false } } } := by
  have h : ¬ ("clusterCA" = "kubeconfig") := by decide
  simp [dataStep, h]

theorem dataStep_endpoint (Unmarshal : Bytes → Except String KubeConfig) (st : Locals)
    (v : Bytes) :
    dataStep Unmarshal st ("endpoint", v) = .ok { st with server := v } := by
  have h1 : ¬ ("endpoint" = "kubeconfig") := by decide
  have h2 : ¬ ("endpoint" = "clusterCA") := by decide
  simp [dataStep, h1, h2]

theorem dataStep_other (Unmarshal : Bytes → Except String KubeConfig) (st : Locals)
    (kv : String × Bytes) (h1 : kv.1 ≠ "kubeconfig") (h2 : kv.1 ≠ "clusterCA")
    (h3 : kv.1 ≠ "endpoint") : dataStep Unmarshal st kv = .ok st := by
  simp [dataStep, h1, h2, h3]

theorem dataLoop_eq_loopResult (Unmarshal : Bytes → Except String KubeConfig)
    (l : List (String × Bytes)) (hd : DistinctKeys l) (st : Locals) :
    dataLoop Unmarshal l st = loopResult Unmarshal l st := by
  induction l generalizing st with
  | nil => rfl
  | cons p l ih =>
    have hd' : DistinctKeys l := (List.nodup_cons.1 hd).2
    have hp : l.lookup p.1 = none := lookup_none_of_not_key (List.nodup_cons.1 hd).1
    obtain ⟨k, v⟩ := p
    simp only at hp
    by_cases h1 : k = "kubeconfig"
    · subst h1
      have e1 : (("kubeconfig", v) :: l).lookup "kubeconfig" = some v := lookup_cons_self
      have e2 : (("kubeconfig", v) :: l).lookup "clusterCA" = l.lookup "clusterCA" :=
        lookup_cons_ne (by decide)
      have e3 : (("kubeconfig", v) :: l).lookup "endpoint" = l.lookup "endpoint" :=
        lookup_cons_ne (by decide)
      rw [dataLoop, dataStep_kubeconfig]
      simp only [loopResult, e1]
      cases hU : Unmarshal v with
      | error err => rfl
      | ok kubeConfig =>
        simp only [ih hd', loopResult, hp, afterLoop, e2, e3]
    · by_cases h2 : k = "clusterCA"
      · subst h2
        have e1 : (("clusterCA", v) :: l).lookup "kubeconfig" = l.lookup "kubeconfig" :=
          lookup_cons_ne (by decide)
        have e2 : (("clusterCA", v) :: l).lookup "clusterCA" = some v := lookup_cons_self
        have e3 : (("clusterCA", v) :: l).lookup "endpoint" = l.lookup "endpoint" :=
          lookup_cons_ne (by decide)
        rw [dataLoop, dataStep_clusterCA]
        simp only [ih hd', loopResult, e1, afterLoop, e2, e3, hp]
      · by_cases h3 : k = "endpoint"
        · subst h3
          have e1 : (("endpoint", v) :: l).lookup "kubeconfig" = l.lookup "kubeconfig" :=
            lookup_cons_ne (by decide)
          have e2 : (("endpoint", v) :: l).lookup "clusterCA" = l.lookup "clusterCA" :=
            lookup_cons_ne (by decide)
          have e3 : (("endpoint", v) :: l).lookup "endpoint" = some v := lookup_cons_self
          rw [dataLoop, dataStep_endpoint]
          simp only [ih hd', loopResult, e1, afterLoop, e2, e3, hp]
        · have e1 : ((k, v) :: l).lookup "kubeconfig" = l.lookup "kubeconfig" :=
            lookup_cons_ne (Ne.symm h1)
          have e2 : ((k, v) :: l).lookup "clusterCA" = l.lookup "clusterCA" :=
            lookup_cons_ne (Ne.symm h2)
          have e3 : ((k, v) :: l).lookup "endpoint" = l.lookup "endpoint" :=
            lookup_cons_ne (Ne.symm h3)
          rw [dataLoop, dataStep_other Unmarshal st (k, v) h1 h2 h3]
          simp only [ih hd', loopResult, e1, afterLoop, e2, e3]

/-! ### The owner loop -/

theorem dataLoop_visit (Unmarshal : Bytes → Except String KubeConfig)
    (rangeOrder : Nat → List (String × Bytes) → List (String × Bytes))
    (data : List (String × Bytes)) (hd : DistinctKeys data) (hv : VisitsAll rangeOrder)
    (i : Nat) (st : Locals) :
    dataLoop Unmarshal (rangeOrder i data) st = loopResult Unmarshal data st := by
  rw [dataLoop_eq_loopResult Unmarshal _ (DistinctKeys.of_perm (hv i data) hd)]
  exact loopResult_perm Unmarshal (hv i data) hd st

theorem ownerLoop_unmatched (env : Env) (Unmarshal : Bytes → Except String KubeConfig)
    (rangeOrder : Nat → List (String × Bytes) → List (String × Bytes))
    (data : List (String × Bytes)) (i : Nat) (owners : List OwnerReference)
    (h : ∀ o ∈ owners, o.Kind ≠ "GKECluster") :
    ownerLoop env Unmarshal rangeOrder data i owners = [] := by
  induction owners generalizing i with
  | nil => rfl
  | cons o rest ih =>
    have ho : o.Kind ≠ "GKECluster" := h o (List.mem_cons_self _ _)
    rw [ownerLoop, if_neg ho]
    exact ih i (fun o' ho' => h o' (List.mem_cons_of_mem _ ho'))

theorem ownerLoop_error (env : Env) (Unmarshal : Bytes → Except String KubeConfig)
    (rangeOrder : Nat → List (String × Bytes) → List (String × Bytes))
    (data : List (String × Bytes)) (err : String)
    (hloop : ∀ i, dataLoop Unmarshal (rangeOrder i data) {} = .error err)
    (i : Nat) (owners : List OwnerReference)
    (hm : ∃ o ∈ owners, o.Kind = "GKECluster") :
    ∃ o ∈ owners, o.Kind = "GKECluster" ∧
      ownerLoop env Unmarshal rangeOrder data i owners =
        [Effect.logFound o.Name, Effect.printErr err] := by
  induction owners generalizing i with
  | nil =>
    obtain ⟨o, ho, _⟩ := hm
    exact absurd ho (List.not_mem_nil o)
  | cons o rest ih =>
    by_cases hk : o.Kind = "GKECluster"
    · refine ⟨o, List.mem_cons_self _ _, hk, ?_⟩
      rw [ownerLoop, if_pos hk, hloop i]
    · have hm' : ∃ o' ∈ rest, o'.Kind = "GKECluster" := by
        obtain ⟨o', ho', hk'⟩ := hm
        rcases List.mem_cons.1 ho' with h | h
        · exact absurd (h ▸ hk') hk
        · exact ⟨o', h, hk'⟩
      obtain ⟨o', ho', hk', htr⟩ := ih i hm'
      refine ⟨o', List.mem_cons_of_mem _ ho', hk', ?_⟩
      rw [ownerLoop, if_neg hk]
      exact htr

theorem ownerLoop_ok (env : Env) (Unmarshal : Bytes → Except String KubeConfig)
    (rangeOrder : Nat → List (String × Bytes) → List (String × Bytes))
    (data : List (String × Bytes)) (st : Locals)
    (hloop : ∀ i, dataLoop Unmarshal (rangeOrder i data) {} = .ok st)
    (i : Nat) (owners : List OwnerReference) :
    ownerLoop env Unmarshal rangeOrder data i owners =
      (owners.filter (fun o => o.Kind = "GKECluster")).flatMap (fun o =>
        [Effect.logFound o.Name,
         Effect.logSecret (buildSecret env st.argoConfig st.server)]) := by
  induction owners generalizing i with
  | nil => rfl
  | cons o rest ih =>
    by_cases hk : o.Kind = "GKECluster"
    · rw [ownerLoop, if_pos hk, hloop i]
      simp [hk, ih (i + 1)]
    · rw [ownerLoop, if_neg hk]
      simp [hk, ih i]

theorem built_pairs (s : Secret) (owners : List OwnerReference) :
    built (owners.flatMap (fun o => [Effect.logFound o.Name, Effect.logSecret s])) =
      List.replicate owners.length s := by
  induction owners with
  | nil => rfl
  | cons o rest ih =>
    have h : built (Effect.logFound o.Name :: Effect.logSecret s ::
        rest.flatMap (fun o => [Effect.logFound o.Name, Effect.logSecret s])) =
        List.replicate (o :: rest).length s := by
      simp only [built, ih, List.length_cons, List.replicate_succ]
    exact h

theorem storeWrites_pairs (s : Secret) (owners : List OwnerReference) :
    storeWrites (owners.flatMap (fun o => [Effect.logFound o.Name, Effect.logSecret s])) =
      [] := by
  induction owners with
  | nil => rfl
  | cons o rest ih =>
    have h : storeWrites (Effect.logFound o.Name :: Effect.logSecret s ::
        rest.flatMap (fun o => [Effect.logFound o.Name, Effect.logSecret s])) = [] := by
      simp only [storeWrites, ih]
    exact h

theorem printErr_not_mem_pairs (s : Secret) (owners : List OwnerReference) (err : String) :
    Effect.printErr err ∉
      owners.flatMap (fun o => [Effect.logFound o.Name, Effect.logSecret s]) := by
  simp [List.mem_flatMap]

theorem storeWrites_ownerLoop (env : Env) (Unmarshal : Bytes → Except String KubeConfig)
    (rangeOrder : Nat → List (String × Bytes) → List (String × Bytes))
    (data : List (String × Bytes)) (i : Nat) (owners : List OwnerReference) :
    storeWrites (ownerLoop env Unmarshal rangeOrder data i owners) = [] := by
  induction owners generalizing i with
  | nil => rfl
  | cons o rest ih =>
    by_cases hk : o.Kind = "GKECluster"
    · rw [ownerLoop, if_pos hk]
      cases hr : dataLoop Unmarshal (rangeOrder i data) {} with
      | error err => rfl
      | ok st => simp only [storeWrites, ih (i + 1)]
    · rw [ownerLoop, if_neg hk]
      exact ih i

/-- The handler never attempts a store write. -/
theorem storeWrites_AddFunc (env : Env) (Unmarshal : Bytes → Except String KubeConfig)
    (rangeOrder : Nat → List (String × Bytes) → List (String × Bytes)) (new : Secret) :
    storeWrites (AddFunc env Unmarshal rangeOrder new) = [] :=
  storeWrites_ownerLoop env Unmarshal rangeOrder new.Data 0 _

theorem countP_eq_length_filter_kind (owners : List OwnerReference) :
    (owners.filter (fun o => o.Kind = "GKECluster")).length =
      owners.countP (fun o => o.Kind = "GKECluster") := by
  rw [List.countP_eq_length_filter]

/-- When the payload loop succeeds with locals `st`, the handler logs one record per
matching owner reference, each built from `st`. -/
theorem AddFunc_ok (env : Env) (Unmarshal : Bytes → Except String KubeConfig)
    (rangeOrder : Nat → List (String × Bytes) → List (String × Bytes)) (new : Secret)
    (hd : DistinctKeys new.Data) (hv : VisitsAll rangeOrder) (st : Locals)
    (hst : loopResult Unmarshal new.Data {} = .ok st) :
    built (AddFunc env Unmarshal rangeOrder new) =
        List.replicate (matchCount new) (buildSecret env st.argoConfig st.server) ∧
      ∀ err, Effect.printErr err ∉ AddFunc env Unmarshal rangeOrder new := by
  have hloop : ∀ i, dataLoop Unmarshal (rangeOrder i new.Data) {} = .ok st := fun i => by
    rw [dataLoop_visit Unmarshal rangeOrder new.Data hd hv i, hst]
  unfold AddFunc
  rw [ownerLoop_ok env Unmarshal rangeOrder new.Data st hloop]
  refine ⟨?_, fun err => printErr_not_mem_pairs _ _ err⟩
  rw [built_pairs, countP_eq_length_filter_kind]
  rfl

/-- When the payload loop fails, a matched event ends after the first matching owner
reference with the error printed. -/
theorem AddFunc_error (env : Env) (Unmarshal : Bytes → Except String KubeConfig)
    (rangeOrder : Nat → List (String × Bytes) → List (String × Bytes)) (new : Secret)
    (hd : DistinctKeys new.Data) (hv : VisitsAll rangeOrder) (err : String)
    (hst : loopResult Unmarshal new.Data {} = .error err) (hm : Matched new) :
    ∃ o ∈ new.ObjectMeta.OwnerReferences, o.Kind = "GKECluster" ∧
      AddFunc env Unmarshal rangeOrder new =
        [Effect.logFound o.Name, Effect.printErr err] := by
  have hloop : ∀ i, dataLoop Unmarshal (rangeOrder i new.Data) {} = .error err := fun i => by
    rw [dataLoop_visit Unmarshal rangeOrder new.Data hd hv i, hst]
  exact ownerLoop_error env Unmarshal rangeOrder new.Data err hloop 0 _ hm

theorem loopResult_of_decodes (Unmarshal : Bytes → Except String KubeConfig)
    (data : List (String × Bytes)) (h : KubeconfigAbsentOrDecodes Unmarshal data) :
    loopResult Unmarshal data {} =
      .ok { argoConfig := specConfig Unmarshal data, server := specServer data } := by
  rcases h with h | ⟨v, kubeConfig, h, hU⟩
  · simp only [loopResult, h, afterLoop, specConfig, specClusterName, specCaData, specServer]
    cases data.lookup "clusterCA" <;> cases data.lookup "endpoint" <;> rfl
  · simp only [loopResult, h, hU, afterLoop, specConfig, specClusterName, specCaData,
      specServer]
    cases data.lookup "clusterCA" <;> cases data.lookup "endpoint" <;> rfl

theorem matchCount_pos_of_matched (new : Secret) (hm : Matched new) : 0 < matchCount new := by
  obtain ⟨o, ho, hk⟩ := hm
  unfold matchCount
  rw [List.countP_pos_iff]
  exact ⟨o, ho, by simpa using hk⟩

theorem VisitsAll_alternating : VisitsAll alternating := by
  intro i data
  unfold alternating
  split
  · exact List.Perm.refl _
  · exact List.reverse_perm _

theorem ownerLoop_congr (env : Env) (Unmarshal : Bytes → Except String KubeConfig)
    (ro₁ ro₂ : Nat → List (String × Bytes) → List (String × Bytes))
    (data : List (String × Bytes))
    (h : ∀ i, dataLoop Unmarshal (ro₁ i data) {} = dataLoop Unmarshal (ro₂ i data) {})
    (i : Nat) (owners : List OwnerReference) :
    ownerLoop env Unmarshal ro₁ data i owners = ownerLoop env Unmarshal ro₂ data i owners := by
  induction owners generalizing i with
  | nil => rfl
  | cons o rest ih =>
    by_cases hk : o.Kind = "GKECluster"
    · rw [ownerLoop, ownerLoop, if_pos hk, if_pos hk, h i]
      cases dataLoop Unmarshal (ro₂ i data) {} with
      | error err => rfl
      | ok st => simp only [ih (i + 1)]
    · rw [ownerLoop, ownerLoop, if_neg hk, if_neg hk]
      exact ih i

theorem buildSecret_lookup_name (env : Env) (argoConfig : ArgoConfig) (server : Bytes) :
    (buildSecret env argoConfig server).Data.lookup "name" =
      some (utf8 ("gke-" ++ argoConfig.AuthConfig.ClusterName)) := rfl

theorem buildSecret_lookup_config (env : Env) (argoConfig : ArgoConfig) (server : Bytes) :
    (buildSecret env argoConfig server).Data.lookup "config" =
      some (utf8 (Marshal argoConfig)) := rfl

theorem buildSecret_lookup_server (env : Env) (argoConfig : ArgoConfig) (server : Bytes) :
    (buildSecret env argoConfig server).Data.lookup "server" = some server := rfl

theorem replicate_ne_nil_of_pos {n : Nat} (s : Secret) (h : 0 < n) :
    List.replicate n s ≠ [] := by
  cases n with
  | zero => exact absurd h (Nat.lt_irrefl 0)
  | succ m => simp [List.replicate_succ]

/-! ### `encoding/base64` -/

/-- The test vectors of RFC 4648, section 10. -/
theorem EncodeToString_rfc4648 :
    EncodeToString (utf8 "") = "" ∧ EncodeToString (utf8 "f") = "Zg==" ∧
      EncodeToString (utf8 "fo") = "Zm8=" ∧ EncodeToString (utf8 "foo") = "Zm9v" ∧
      EncodeToString (utf8 "foob") = "Zm9vYg==" ∧
      EncodeToString (utf8 "fooba") = "Zm9vYmE=" ∧
      EncodeToString (utf8 "foobar") = "Zm9vYmFy" := by
  decide

/-- The encoding has four characters for every group of up to three octets. -/
theorem EncodeToString_length (v : Bytes) :
    (EncodeToString v).length = 4 * ((v.length + 2) / 3) := by
  show (encodeChunks v).length = _
  induction v using encodeChunks.induct with
  | case1 b0 b1 b2 rest ih =>
    simp only [encodeChunks, List.length_cons, ih]
    omega
  | case2 b0 b1 => simp [encodeChunks]
  | case3 b0 => simp [encodeChunks]
  | case4 => rfl

/-! ### `strings.TrimSpace` -/

/-- The trimmed text is what is left of the input between a run of leading white space
and a run of trailing white space, and neither starts nor ends with white space. -/
theorem TrimSpace_spec (s : String) :
    ∃ pre suf : List Char,
      s.data = pre ++ (TrimSpace s).data ++ suf ∧
      (∀ c ∈ pre, isSpace c = true) ∧ (∀ c ∈ suf, isSpace c = true) ∧
      (∀ c, (TrimSpace s).data.head? = some c → isSpace c = false) ∧
      (∀ c, (TrimSpace s).data.getLast? = some c → isSpace c = false) := by
  refine ⟨s.data.takeWhile isSpace, (s.data.dropWhile isSpace).rtakeWhile isSpace,
    ?_, ?_, ?_, ?_, ?_⟩
  · have h1 : (s.data.dropWhile isSpace).rdropWhile isSpace ++
        (s.data.dropWhile isSpace).rtakeWhile isSpace = s.data.dropWhile isSpace := by
      have := List.takeWhile_append_dropWhile isSpace (s.data.dropWhile isSpace).reverse
      have h2 := congrArg List.reverse this
      rw [List.reverse_append, List.reverse_reverse] at h2
      exact h2
    show s.data = s.data.takeWhile isSpace ++
      (s.data.dropWhile isSpace).rdropWhile isSpace ++
      (s.data.dropWhile isSpace).rtakeWhile isSpace
    rw [List.append_assoc, h1, List.takeWhile_append_dropWhile]
  · intro c hc
    exact List.mem_takeWhile_imp hc
  · intro c hc
    exact List.mem_rtakeWhile_imp hc
  · intro c hc
    have hpre : (s.data.dropWhile isSpace).rdropWhile isSpace <+: s.data.dropWhile isSpace :=
      List.rdropWhile_prefix _ _
    obtain ⟨t, ht⟩ := hpre
    have hc' : ((s.data.dropWhile isSpace).rdropWhile isSpace).head? = some c := hc
    have hhead : (s.data.dropWhile isSpace).head? = some c := by
      rw [← ht]
      cases hq : (s.data.dropWhile isSpace).rdropWhile isSpace with
      | nil => rw [hq] at hc'; simp at hc'
      | cons a q => rw [hq] at hc'; simpa using hc'
    have := List.head?_dropWhile_not isSpace s.data
    rw [hhead] at this
    exact this
  · intro c hc
    have hc' : ((s.data.dropWhile isSpace).rdropWhile isSpace).getLast? = some c := hc
    have hne : (s.data.dropWhile isSpace).rdropWhile isSpace ≠ [] := by
      intro h
      rw [h] at hc'
      simp at hc'
    have hlast := List.rdropWhile_last_not isSpace (s.data.dropWhile isSpace) hne
    rw [List.getLast?_eq_getLast _ hne] at hc'
    have : ((s.data.dropWhile isSpace).rdropWhile isSpace).getLast hne = c := by
      simpa using hc'
    rw [this] at hlast
    simpa using hlast

theorem length_pos_of_ne_empty (s : String) (h : s ≠ "") : 0 < s.length := by
  rcases s with ⟨l⟩
  cases l with
  | nil => exact absurd rfl h
  | cons a l => simp [String.length]

theorem default_ne_empty : ("default" : String) ≠ "" := by decide

theorem loopResult_ok_fields (Unmarshal : Bytes → Except String KubeConfig)
    (data : List (String × Bytes)) (st : Locals)
    (hst : loopResult Unmarshal data {} = .ok st) :
    st.argoConfig.BearerToken = "" ∧
      st.argoConfig.TLSClientConfig = { Insecure := false, CaData := specCaData data } ∧
      st.server = specServer data := by
  have key : ∀ name, (afterLoop data {} name).argoConfig.BearerToken = "" ∧
      (afterLoop data {} name).argoConfig.TLSClientConfig =
        { Insecure := false, CaData := specCaData data } ∧
      (afterLoop data {} name).server = specServer data := by
    intro name
    unfold afterLoop specCaData specServer
    cases data.lookup "clusterCA" <;> cases data.lookup "endpoint" <;> exact ⟨rfl, rfl, rfl⟩
  unfold loopResult at hst
  cases hk : data.lookup "kubeconfig" with
  | none =>
    simp only [hk] at hst
    injection hst with hst
    rw [← hst]
    exact key _
  | some v =>
    simp only [hk] at hst
    cases hu : Unmarshal v with
    | error err => simp only [hu] at hst; cases hst
    | ok kubeConfig =>
      simp only [hu] at hst
      injection hst with hst
      rw [← hst]
      exact key _

theorem built_AddFunc_of_error (env : Env) (Unmarshal : Bytes → Except String KubeConfig)
    (rangeOrder : Nat → List (String × Bytes) → List (String × Bytes)) (new : Secret)
    (hd : DistinctKeys new.Data) (hv : VisitsAll rangeOrder) (err : String)
    (hst : loopResult Unmarshal new.Data {} = .error err) :
    built (AddFunc env Unmarshal rangeOrder new) = [] := by
  by_cases hm : Matched new
  · obtain ⟨o, _, _, htr⟩ := AddFunc_error env Unmarshal rangeOrder new hd hv err hst hm
    rw [htr]
    rfl
  · have h : ∀ o ∈ new.ObjectMeta.OwnerReferences, o.Kind ≠ "GKECluster" :=
      fun o ho hk => hm ⟨o, ho, hk⟩
    have h0 : AddFunc env Unmarshal rangeOrder new = [] :=
      ownerLoop_unmatched env Unmarshal rangeOrder new.Data 0 _ h
    rw [h0]
    rfl

/-! ### `json.Marshal` -/

/-- The text `json.Marshal` writes for a credential record. -/
theorem Marshal_text (c : ArgoConfig) :
    Marshal c =
      "\x7b\"bearerToken\":" ++ marshalString c.BearerToken ++
      ",\"tlsClientConfig\":\x7b\"insecure\":" ++
      (if c.TLSClientConfig.Insecure then "true" else "false") ++
      ",\"caData\":" ++ marshalString c.TLSClientConfig.CaData ++
      "\x7d,\"AuthConfig\":\x7b\"clusterName\":" ++
      marshalString c.AuthConfig.ClusterName ++ "\x7d\x7d" := by
  have k1 : marshalString "bearerToken" = "\"bearerToken\"" := by decide
  have k2 : marshalString "tlsClientConfig" = "\"tlsClientConfig\"" := by decide
  have k3 : marshalString "insecure" = "\"insecure\"" := by decide
  have k4 : marshalString "caData" = "\"caData\"" := by decide
  have k5 : marshalString "AuthConfig" = "\"AuthConfig\"" := by decide
  have k6 : marshalString "clusterName" = "\"clusterName\"" := by decide
  simp only [Marshal, ArgoConfig.toJSON, TLSClientConfig.toJSON, AuthConfig.toJSON,
    JSON.render, renderMembers, k1, k2, k3, k4, k5, k6]
  apply String.ext
  simp only [String.data_append, List.append_assoc]
  rfl

/-- No character of the base64 alphabet is escaped by the JSON encoder. -/
theorem escapeRune_b64Char (n : Nat) : escapeRune (b64Char n) = [b64Char n] := by
  have h : ∀ m, m < 64 → escapeRune (encodeStd.getD m 'A') = [encodeStd.getD m 'A'] := by
    decide
  exact h (n % 64) (Nat.mod_lt n (by decide))

theorem escapeRune_pad : escapeRune '=' = ['='] := by decide

theorem flatMap_escapeRune_encodeChunks (v : Bytes) :
    (encodeChunks v).flatMap escapeRune = encodeChunks v := by
  induction v using encodeChunks.induct with
  | case1 b0 b1 b2 rest ih =>
    simp only [encodeChunks, List.flatMap_cons, escapeRune_b64Char, ih, List.singleton_append]
  | case2 b0 b1 =>
    simp only [encodeChunks, List.flatMap_cons, List.flatMap_nil, escapeRune_b64Char,
      escapeRune_pad, List.singleton_append, List.append_nil]
  | case3 b0 =>
    simp only [encodeChunks, List.flatMap_cons, List.flatMap_nil, escapeRune_b64Char,
      escapeRune_pad, List.singleton_append, List.append_nil]
  | case4 => rfl

/-- A base64 text is written between quotes as it is. -/
theorem marshalString_EncodeToString (v : Bytes) :
    marshalString (EncodeToString v) = "\"" ++ EncodeToString v ++ "\"" := by
  apply String.ext
  simp only [marshalString, EncodeToString, flatMap_escapeRune_encodeChunks,
    String.data_append]
  rfl

theorem marshalString_specCaData (data : List (String × Bytes)) :
    marshalString (specCaData data) = "\"" ++ specCaData data ++ "\"" := by
  unfold specCaData
  cases data.lookup "clusterCA" with
  | none => decide
  | some B => exact marshalString_EncodeToString B

/-- The text of the credential record of a payload: the CA data stands between quotes
unescaped, the cluster name as a JSON string literal. -/
theorem Marshal_specConfig (Unmarshal : Bytes → Except String KubeConfig)
    (data : List (String × Bytes)) :
    Marshal (specConfig Unmarshal data) =
      "\x7b\"bearerToken\":\"\",\"tlsClientConfig\":\x7b\"insecure\":false,\"caData\":\"" ++
      specCaData data ++ "\"\x7d,\"AuthConfig\":\x7b\"clusterName\":" ++
      marshalString (specClusterName Unmarshal data) ++ "\x7d\x7d" := by
  have k0 : marshalString "" = "\"\"" := by decide
  rw [Marshal_text]
  simp only [specConfig, marshalString_specCaData, k0]
  apply String.ext
  simp only [String.data_append, List.append_assoc]
  rfl

/-- A text without characters the encoder escapes is written between quotes as it is. -/
theorem marshalString_plain (s : String) (h : ∀ c ∈ s.data, escapeRune c = [c]) :
    marshalString s = "\"" ++ s ++ "\"" := by
  have hf : ∀ l : List Char, (∀ c ∈ l, escapeRune c = [c]) → l.flatMap escapeRune = l := by
    intro l
    induction l with
    | nil => intro _; rfl
    | cons a l ih =>
      intro hl
      rw [List.flatMap_cons, hl a (List.mem_cons_self _ _),
        ih (fun c hc => hl c (List.mem_cons_of_mem _ hc))]
      rfl
  apply String.ext
  simp only [marshalString, hf s.data h, String.data_append]
  rfl

/-! ## The claims -/

/-- C1: an event whose secret has no owner reference of kind `GKECluster` (no owner
references at all included) makes the handler do nothing: no output record is constructed
and no store write is performed, whatever the payload and the decoder are. -/
theorem C1_unmatched_event_no_output (env : Env)
    (Unmarshal : Bytes → Except String KubeConfig)
    (rangeOrder : Nat → List (String × Bytes) → List (String × Bytes)) (new : Secret)
    (h : ∀ o ∈ new.ObjectMeta.OwnerReferences, o.Kind ≠ "GKECluster") :
    AddFunc env Unmarshal rangeOrder new = [] ∧
      built (AddFunc env Unmarshal rangeOrder new) = [] ∧
      storeWrites (AddFunc env Unmarshal rangeOrder new) = [] := by
  have h0 : AddFunc env Unmarshal rangeOrder new = [] :=
    ownerLoop_unmatched env Unmarshal rangeOrder new.Data 0 _ h
  rw [h0]
  exact ⟨rfl, rfl, rfl⟩

/-- C1 at the secret owned by `OtherKind` whose `kubeconfig` is malformed, and at a
secret without owner references. -/
theorem C1_unmatched_event_no_output_witness :
    sampleUnmarshal brokenYaml = .error "error converting YAML to JSON" ∧
      (AddFunc {} sampleUnmarshal alternating otherKindSecret = [] ∧
        built (AddFunc {} sampleUnmarshal alternating otherKindSecret) = [] ∧
        storeWrites (AddFunc {} sampleUnmarshal alternating otherKindSecret) = []) ∧
      (AddFunc {} sampleUnmarshal alternating { Data := otherKindSecret.Data } = [] ∧
        built (AddFunc {} sampleUnmarshal alternating { Data := otherKindSecret.Data }) = [] ∧
        storeWrites (AddFunc {} sampleUnmarshal alternating { Data := otherKindSecret.Data })
          = []) :=
  ⟨rfl,
   C1_unmatched_event_no_output {} sampleUnmarshal alternating otherKindSecret (by decide),
   C1_unmatched_event_no_output {} sampleUnmarshal alternating
     { Data := otherKindSecret.Data } (by decide)⟩

/-- C2: for a matched event whose payload has a `kubeconfig` entry that fails to decode,
the handler prints the error after the first matching owner reference and returns: no
output record is constructed and no store write is attempted, whatever the other keys are
and in whatever order the entries are visited. -/
theorem C2_decode_failure_aborts (env : Env)
    (Unmarshal : Bytes → Except String KubeConfig)
    (rangeOrder : Nat → List (String × Bytes) → List (String × Bytes)) (new : Secret)
    (v : Bytes) (err : String)
    (hm : Matched new) (hd : DistinctKeys new.Data) (hv : VisitsAll rangeOrder)
    (hk : new.Data.lookup "kubeconfig" = some v) (he : Unmarshal v = .error err) :
    built (AddFunc env Unmarshal rangeOrder new) = [] ∧
      storeWrites (AddFunc env Unmarshal rangeOrder new) = [] ∧
      ∃ o ∈ new.ObjectMeta.OwnerReferences, o.Kind = "GKECluster" ∧
        AddFunc env Unmarshal rangeOrder new =
          [Effect.logFound o.Name, Effect.printErr err] := by
  have hst : loopResult Unmarshal new.Data {} = .error err := by
    simp only [loopResult, hk, he]
  obtain ⟨o, ho, hkind, htr⟩ := AddFunc_error env Unmarshal rangeOrder new hd hv err hst hm
  refine ⟨?_, storeWrites_AddFunc env Unmarshal rangeOrder new, o, ho, hkind, htr⟩
  rw [htr]
  rfl

/-- C2 at a matched secret with a malformed `kubeconfig` between `clusterCA`, `endpoint`
and an unknown key. -/
theorem C2_decode_failure_aborts_witness :
    built (AddFunc {} sampleUnmarshal alternating brokenSecret) = [] ∧
      storeWrites (AddFunc {} sampleUnmarshal alternating brokenSecret) = [] ∧
      ∃ o ∈ brokenSecret.ObjectMeta.OwnerReferences, o.Kind = "GKECluster" ∧
        AddFunc {} sampleUnmarshal alternating brokenSecret =
          [Effect.logFound o.Name, Effect.printErr "error converting YAML to JSON"] :=
  C2_decode_failure_aborts {} sampleUnmarshal alternating brokenSecret brokenYaml
    "error converting YAML to JSON" ⟨⟨"GKECluster", "cluster-b"⟩, by decide, rfl⟩
    (by decide) VisitsAll_alternating rfl rfl

/-- C3: for a matched event whose `kubeconfig` entry decodes to a document with current
context `c`, the payload loop ends with `AuthConfig.ClusterName = c` in every visiting
order, the derived identifier is `"gke-" ++ c`, at least one record is built, and every
built record is made from these locals and carries `"gke-" ++ c` under `name`. -/
theorem C3_cluster_name_is_current_context (env : Env)
    (Unmarshal : Bytes → Except String KubeConfig)
    (rangeOrder : Nat → List (String × Bytes) → List (String × Bytes)) (new : Secret)
    (v : Bytes) (kubeConfig : KubeConfig) (c : String)
    (hm : Matched new) (hd : DistinctKeys new.Data) (hv : VisitsAll rangeOrder)
    (hk : new.Data.lookup "kubeconfig" = some v) (hu : Unmarshal v = .ok kubeConfig)
    (hc : kubeConfig.CurrentContext = c) :
    ∃ st : Locals,
      (∀ i, dataLoop Unmarshal (rangeOrder i new.Data) {} = .ok st) ∧
      st.argoConfig.AuthConfig.ClusterName = c ∧
      argoClusterName st.argoConfig = "gke-" ++ c ∧
      built (AddFunc env Unmarshal rangeOrder new) ≠ [] ∧
      ∀ s ∈ built (AddFunc env Unmarshal rangeOrder new),
        s = buildSecret env st.argoConfig st.server ∧
        s.Data.lookup "name" = some (utf8 ("gke-" ++ c)) := by
  have hst := loopResult_of_decodes Unmarshal new.Data (Or.inr ⟨v, kubeConfig, hk, hu⟩)
  have hname : specClusterName Unmarshal new.Data = c := by
    simp only [specClusterName, hk, hu, hc]
  obtain ⟨hb, _⟩ := AddFunc_ok env Unmarshal rangeOrder new hd hv _ hst
  refine ⟨{ argoConfig := specConfig Unmarshal new.Data, server := specServer new.Data },
    fun i => ?_, hname, ?_, ?_, ?_⟩
  · rw [dataLoop_visit Unmarshal rangeOrder new.Data hd hv i, hst]
  · show "gke-" ++ specClusterName Unmarshal new.Data = "gke-" ++ c
    rw [hname]
  · rw [hb]
    exact replicate_ne_nil_of_pos _ (matchCount_pos_of_matched new hm)
  · intro s hs
    rw [hb] at hs
    have hs' := List.eq_of_mem_replicate hs
    refine ⟨hs', ?_⟩
    rw [hs', buildSecret_lookup_name]
    show some (utf8 ("gke-" ++ specClusterName Unmarshal new.Data)) = _
    rw [hname]

/-- C3 at a matched secret whose `kubeconfig` has current context `my-cluster`: the
identifier is `gke-my-cluster`. -/
theorem C3_cluster_name_is_current_context_witness :
    ∃ st : Locals,
      (∀ i, dataLoop sampleUnmarshal (alternating i myClusterSecret.Data) {} = .ok st) ∧
      st.argoConfig.AuthConfig.ClusterName = "my-cluster" ∧
      argoClusterName st.argoConfig = "gke-" ++ "my-cluster" ∧
      built (AddFunc {} sampleUnmarshal alternating myClusterSecret) ≠ [] ∧
      ∀ s ∈ built (AddFunc {} sampleUnmarshal alternating myClusterSecret),
        s = buildSecret {} st.argoConfig st.server ∧
        s.Data.lookup "name" = some (utf8 ("gke-" ++ "my-cluster")) :=
  C3_cluster_name_is_current_context {} sampleUnmarshal alternating myClusterSecret
    myClusterYaml { APIVersion := "v1", CurrentContext := "my-cluster", Kind := "Config" }
    "my-cluster" ⟨⟨"GKECluster", "cluster-d"⟩, by decide, rfl⟩ (by decide)
    VisitsAll_alternating rfl rfl rfl

/-- C4: every output record the handler builds is made from locals whose TLS block has
`Insecure = false` and whose `CaData` is the standard padded base64 text of the
`clusterCA` value when the payload has that key and the empty string when it has not; the
octets 0xAA 0xBB encode to `qrs=`. -/
theorem C4_tls_block (env : Env) (Unmarshal : Bytes → Except String KubeConfig)
    (rangeOrder : Nat → List (String × Bytes) → List (String × Bytes)) (new : Secret)
    (s : Secret) (hd : DistinctKeys new.Data) (hv : VisitsAll rangeOrder)
    (hs : s ∈ built (AddFunc env Unmarshal rangeOrder new)) :
    ∃ st : Locals,
      (∀ i, dataLoop Unmarshal (rangeOrder i new.Data) {} = .ok st) ∧
      s = buildSecret env st.argoConfig st.server ∧
      st.argoConfig.TLSClientConfig.Insecure = false ∧
      (∀ B, new.Data.lookup "clusterCA" = some B →
        st.argoConfig.TLSClientConfig.CaData = EncodeToString B) ∧
      (new.Data.lookup "clusterCA" = none → st.argoConfig.TLSClientConfig.CaData = "") ∧
      EncodeToString [0xAA, 0xBB] = "qrs=" := by
  cases hst : loopResult Unmarshal new.Data {} with
  | error err =>
    rw [built_AddFunc_of_error env Unmarshal rangeOrder new hd hv err hst] at hs
    exact absurd hs (List.not_mem_nil s)
  | ok st =>
    obtain ⟨hb, _⟩ := AddFunc_ok env Unmarshal rangeOrder new hd hv st hst
    obtain ⟨_, htls, _⟩ := loopResult_ok_fields Unmarshal new.Data st hst
    rw [hb] at hs
    refine ⟨st, fun i => ?_, List.eq_of_mem_replicate hs, ?_, ?_, ?_, by decide⟩
    · rw [dataLoop_visit Unmarshal rangeOrder new.Data hd hv i, hst]
    · rw [htls]
    · intro B hB
      rw [htls]
      simp only [specCaData, hB]
    · intro hB
      rw [htls]
      simp only [specCaData, hB]

/-- C4 at the record built in the end-to-end scenario. -/
theorem C4_tls_block_witness :
    ∃ st : Locals,
      (∀ i, dataLoop sampleUnmarshal (alternating i e2eSecret.Data) {} = .ok st) ∧
      buildSecret {} { TLSClientConfig := { CaData := "qrs=" }, AuthConfig := ⟨"prod"⟩ }
          (utf8 "https://10.0.0.1") = buildSecret {} st.argoConfig st.server ∧
      st.argoConfig.TLSClientConfig.Insecure = false ∧
      (∀ B, e2eSecret.Data.lookup "clusterCA" = some B →
        st.argoConfig.TLSClientConfig.CaData = EncodeToString B) ∧
      (e2eSecret.Data.lookup "clusterCA" = none →
        st.argoConfig.TLSClientConfig.CaData = "") ∧
      EncodeToString [0xAA, 0xBB] = "qrs=" :=
  C4_tls_block {} sampleUnmarshal alternating e2eSecret
    (buildSecret {} { TLSClientConfig := { CaData := "qrs=" }, AuthConfig := ⟨"prod"⟩ }
      (utf8 "https://10.0.0.1"))
    (by decide) VisitsAll_alternating (by decide)

/-- C5: for a matched event whose `kubeconfig` is absent or decodes, the handler builds at
least one record, and every record it builds has namespace `argocd`, name
`namespace() + "-" + clusterName`, label `argocd.argoproj.io/secret-type = cluster`, and a
payload with exactly the keys `config`, `name`, `server`.  Under `config` stands what
`json.Marshal` writes for the credential record, which is the JSON object text with an
empty `bearerToken`, `insecure` false, the CA data between quotes and the cluster name as
a JSON string literal; under `name` stands `"gke-" + clusterName`; under `server` stand
the octets of the payload's `endpoint` (none when the key is absent). -/
theorem C5_output_record (env : Env) (Unmarshal : Bytes → Except String KubeConfig)
    (rangeOrder : Nat → List (String × Bytes) → List (String × Bytes)) (new : Secret)
    (hm : Matched new) (hd : DistinctKeys new.Data) (hv : VisitsAll rangeOrder)
    (hk : KubeconfigAbsentOrDecodes Unmarshal new.Data) :
    built (AddFunc env Unmarshal rangeOrder new) ≠ [] ∧
      ∀ s ∈ built (AddFunc env Unmarshal rangeOrder new),
        s.ObjectMeta.Namespace = "argocd" ∧
        s.ObjectMeta.Name = namespace_ env ++ "-" ++ specClusterName Unmarshal new.Data ∧
        s.ObjectMeta.Labels.lookup "argocd.argoproj.io/secret-type" = some "cluster" ∧
        s.Data.map Prod.fst = ["config", "name", "server"] ∧
        s.Data.lookup "config" = some (utf8 (Marshal (specConfig Unmarshal new.Data))) ∧
        s.Data.lookup "config" = some (utf8 (
          "\x7b\"bearerToken\":\"\",\"tlsClientConfig\":\x7b\"insecure\":false,\"caData\":\"" ++
          specCaData new.Data ++ "\"\x7d,\"AuthConfig\":\x7b\"clusterName\":" ++
          marshalString (specClusterName Unmarshal new.Data) ++ "\x7d\x7d")) ∧
        ((∀ c ∈ (specClusterName Unmarshal new.Data).data, escapeRune c = [c]) →
          s.Data.lookup "config" = some (utf8 (
            "\x7b\"bearerToken\":\"\",\"tlsClientConfig\":\x7b\"insecure\":false,\"caData\":\"" ++
            specCaData new.Data ++ "\"\x7d,\"AuthConfig\":\x7b\"clusterName\":\"" ++
            specClusterName Unmarshal new.Data ++ "\"\x7d\x7d"))) ∧
        s.Data.lookup "name" = some (utf8 ("gke-" ++ specClusterName Unmarshal new.Data)) ∧
        s.Data.lookup "server" = some (specServer new.Data) := by
  have hst := loopResult_of_decodes Unmarshal new.Data hk
  obtain ⟨hb, _⟩ := AddFunc_ok env Unmarshal rangeOrder new hd hv _ hst
  rw [hb]
  refine ⟨replicate_ne_nil_of_pos _ (matchCount_pos_of_matched new hm), ?_⟩
  intro s hs
  rw [List.eq_of_mem_replicate hs]
  refine ⟨rfl, rfl, rfl, rfl, rfl, ?_, ?_, rfl, rfl⟩
  · rw [buildSecret_lookup_config, Marshal_specConfig]
  · intro hplain
    rw [buildSecret_lookup_config, Marshal_specConfig, marshalString_plain _ hplain]
    congr 2
    apply String.ext
    simp only [String.data_append, List.append_assoc, List.cons_append, List.nil_append]

/-- C5 at the end-to-end scenario: cluster name `prod`, identifier `gke-prod`, CA data
`qrs=`, insecure off, server `https://10.0.0.1`; the handler builds the one record
written out here. -/
theorem C5_output_record_witness :
    (specClusterName sampleUnmarshal e2eSecret.Data = "prod" ∧
      specConfig sampleUnmarshal e2eSecret.Data =
        { BearerToken := "", TLSClientConfig := { Insecure := false, CaData := "qrs=" },
          AuthConfig := { ClusterName := "prod" } } ∧
      utf8 ("gke-" ++ specClusterName sampleUnmarshal e2eSecret.Data) = utf8 "gke-prod" ∧
      specServer e2eSecret.Data = utf8 "https://10.0.0.1" ∧
      Marshal (specConfig sampleUnmarshal e2eSecret.Data) =
        "\x7b\"bearerToken\":\"\",\"tlsClientConfig\":\x7b\"insecure\":false,\"caData\":\"qrs=\"\x7d,\"AuthConfig\":\x7b\"clusterName\":\"prod\"\x7d\x7d" ∧
      built (AddFunc {} sampleUnmarshal alternating e2eSecret) =
        [{ TypeMeta := { Kind := "Secret", APIVersion := "v1" }
           ObjectMeta :=
             { Name := "default-prod"
               Namespace := "argocd"
               Annotations := [("managed-by", "argocd.argoproj.io")]
               Labels := [("argocd.argoproj.io/secret-type", "cluster")] }
           Data :=
             [("config", utf8 "\x7b\"bearerToken\":\"\",\"tlsClientConfig\":\x7b\"insecure\":false,\"caData\":\"qrs=\"\x7d,\"AuthConfig\":\x7b\"clusterName\":\"prod\"\x7d\x7d"),
              ("name", utf8 "gke-prod"),
              ("server", utf8 "https://10.0.0.1")]
           Type_ := "Opaque" }]) ∧
    (built (AddFunc {} sampleUnmarshal alternating e2eSecret) ≠ [] ∧
      ∀ s ∈ built (AddFunc {} sampleUnmarshal alternating e2eSecret),
        s.ObjectMeta.Namespace = "argocd" ∧
        s.ObjectMeta.Name =
          namespace_ {} ++ "-" ++ specClusterName sampleUnmarshal e2eSecret.Data ∧
        s.ObjectMeta.Labels.lookup "argocd.argoproj.io/secret-type" = some "cluster" ∧
        s.Data.map Prod.fst = ["config", "name", "server"] ∧
        s.Data.lookup "config" =
          some (utf8 (Marshal (specConfig sampleUnmarshal e2eSecret.Data))) ∧
        s.Data.lookup "config" = some (utf8 (
          "\x7b\"bearerToken\":\"\",\"tlsClientConfig\":\x7b\"insecure\":false,\"caData\":\"" ++
          specCaData e2eSecret.Data ++ "\"\x7d,\"AuthConfig\":\x7b\"clusterName\":" ++
          marshalString (specClusterName sampleUnmarshal e2eSecret.Data) ++ "\x7d\x7d")) ∧
        ((∀ c ∈ (specClusterName sampleUnmarshal e2eSecret.Data).data, escapeRune c = [c]) →
          s.Data.lookup "config" = some (utf8 (
            "\x7b\"bearerToken\":\"\",\"tlsClientConfig\":\x7b\"insecure\":false,\"caData\":\"" ++
            specCaData e2eSecret.Data ++ "\"\x7d,\"AuthConfig\":\x7b\"clusterName\":\"" ++
            specClusterName sampleUnmarshal e2eSecret.Data ++ "\"\x7d\x7d"))) ∧
        s.Data.lookup "name" =
          some (utf8 ("gke-" ++ specClusterName sampleUnmarshal e2eSecret.Data)) ∧
        s.Data.lookup "server" = some (specServer e2eSecret.Data)) :=
  ⟨⟨by decide, by decide, by decide, by decide, by decide, by decide⟩,
   C5_output_record {} sampleUnmarshal alternating e2eSecret
     ⟨⟨"GKECluster", "cluster-a"⟩, by decide, rfl⟩ (by decide) VisitsAll_alternating
     (Or.inr ⟨prodYaml, { CurrentContext := "prod" }, rfl, rfl⟩)⟩

/-- C6: the outcome does not depend on the order in which the payload entries are
visited.  For a payload with distinct keys, the payload loop run over any two orderings of
its entries gives the same outcome (the same abort, or the same credential record and
server address), and the whole handler does the same under any two visiting orders. -/
theorem C6_order_independent (env : Env) (Unmarshal : Bytes → Except String KubeConfig)
    (new : Secret) (l₁ l₂ : List (String × Bytes))
    (ro₁ ro₂ : Nat → List (String × Bytes) → List (String × Bytes))
    (hd : DistinctKeys new.Data) (h₁ : l₁.Perm new.Data) (h₂ : l₂.Perm new.Data)
    (hv₁ : VisitsAll ro₁) (hv₂ : VisitsAll ro₂) :
    dataLoop Unmarshal l₁ {} = dataLoop Unmarshal l₂ {} ∧
      AddFunc env Unmarshal ro₁ new = AddFunc env Unmarshal ro₂ new := by
  constructor
  · rw [dataLoop_eq_loopResult Unmarshal l₁ (DistinctKeys.of_perm h₁ hd),
      dataLoop_eq_loopResult Unmarshal l₂ (DistinctKeys.of_perm h₂ hd),
      loopResult_perm Unmarshal h₁ hd, loopResult_perm Unmarshal h₂ hd]
  · apply ownerLoop_congr
    intro i
    rw [dataLoop_visit Unmarshal ro₁ new.Data hd hv₁ i,
      dataLoop_visit Unmarshal ro₂ new.Data hd hv₂ i]

/-- C6 at the end-to-end payload, visited forwards and backwards. -/
theorem C6_order_independent_witness :
    dataLoop sampleUnmarshal e2eSecret.Data {} =
        dataLoop sampleUnmarshal e2eSecret.Data.reverse {} ∧
      AddFunc {} sampleUnmarshal alternating e2eSecret =
        AddFunc {} sampleUnmarshal (fun _ data => data.reverse) e2eSecret :=
  C6_order_independent {} sampleUnmarshal e2eSecret e2eSecret.Data e2eSecret.Data.reverse
    alternating (fun _ data => data.reverse) (by decide) (List.Perm.refl _)
    (List.reverse_perm _) VisitsAll_alternating (fun _ data => List.reverse_perm data)

/-- C7, evaluated on the code: the serialization of every credential record is an object
with the members `bearerToken`, `tlsClientConfig` (members `insecure`, `caData`) and
`AuthConfig` (member `clusterName`), in this order.  The third key is spelled
`AuthConfig`, as the struct tag has it: there is no member `authConfig`, and the cluster
name is found at `AuthConfig.clusterName`. -/
theorem C7_third_key_is_AuthConfig (c : ArgoConfig) :
    c.toJSON.keys = ["bearerToken", "tlsClientConfig", "AuthConfig"] ∧
      c.toJSON.keys ≠ ["bearerToken", "tlsClientConfig", "authConfig"] ∧
      (c.toJSON.member "tlsClientConfig").map JSON.keys = some ["insecure", "caData"] ∧
      (c.toJSON.member "AuthConfig").map JSON.keys = some ["clusterName"] ∧
      (c.toJSON.member "authConfig").map JSON.keys = none ∧
      Marshal c =
        "\x7b\"bearerToken\":" ++ marshalString c.BearerToken ++
        ",\"tlsClientConfig\":\x7b\"insecure\":" ++
        (if c.TLSClientConfig.Insecure then "true" else "false") ++
        ",\"caData\":" ++ marshalString c.TLSClientConfig.CaData ++
        "\x7d,\"AuthConfig\":\x7b\"clusterName\":" ++
        marshalString c.AuthConfig.ClusterName ++ "\x7d\x7d" ∧
      Marshal { TLSClientConfig := { CaData := "qrs=" }, AuthConfig := { ClusterName := "prod" } } =
        "\x7b\"bearerToken\":\"\",\"tlsClientConfig\":\x7b\"insecure\":false,\"caData\":\"qrs=\"\x7d,\"AuthConfig\":\x7b\"clusterName\":\"prod\"\x7d\x7d" := by
  have hne : ["bearerToken", "tlsClientConfig", "AuthConfig"] ≠
      ["bearerToken", "tlsClientConfig", "authConfig"] := by decide
  exact ⟨rfl, hne, rfl, rfl, rfl, Marshal_text c, by decide⟩

/-- C8: for a matched event whose payload has no `kubeconfig` key the handler does not
abort: no error is printed, at least one record is built, the cluster name is the empty
string, and every built record has name `namespace() + "-"` and carries exactly `gke-`
under `name`. -/
theorem C8_missing_kubeconfig (env : Env) (Unmarshal : Bytes → Except String KubeConfig)
    (rangeOrder : Nat → List (String × Bytes) → List (String × Bytes)) (new : Secret)
    (hm : Matched new) (hd : DistinctKeys new.Data) (hv : VisitsAll rangeOrder)
    (hk : new.Data.lookup "kubeconfig" = none) :
    (∀ err, Effect.printErr err ∉ AddFunc env Unmarshal rangeOrder new) ∧
      built (AddFunc env Unmarshal rangeOrder new) ≠ [] ∧
      ∃ st : Locals,
        (∀ i, dataLoop Unmarshal (rangeOrder i new.Data) {} = .ok st) ∧
        st.argoConfig.AuthConfig.ClusterName = "" ∧
        argoClusterName st.argoConfig = "gke-" ∧
        ∀ s ∈ built (AddFunc env Unmarshal rangeOrder new),
          s = buildSecret env st.argoConfig st.server ∧
          s.ObjectMeta.Name = namespace_ env ++ "-" ∧
          s.Data.lookup "name" = some (utf8 "gke-") := by
  have hst := loopResult_of_decodes Unmarshal new.Data (Or.inl hk)
  have hname : specClusterName Unmarshal new.Data = "" := by
    simp only [specClusterName, hk]
  obtain ⟨hb, hp⟩ := AddFunc_ok env Unmarshal rangeOrder new hd hv _ hst
  refine ⟨hp, ?_, { argoConfig := specConfig Unmarshal new.Data,
                    server := specServer new.Data }, fun i => ?_, hname, ?_, ?_⟩
  · rw [hb]
    exact replicate_ne_nil_of_pos _ (matchCount_pos_of_matched new hm)
  · rw [dataLoop_visit Unmarshal rangeOrder new.Data hd hv i, hst]
  · show "gke-" ++ specClusterName Unmarshal new.Data = "gke-"
    rw [hname]
    rfl
  · intro s hs
    rw [hb] at hs
    have hs' := List.eq_of_mem_replicate hs
    refine ⟨hs', ?_, ?_⟩
    · rw [hs']
      show namespace_ env ++ "-" ++ specClusterName Unmarshal new.Data = namespace_ env ++ "-"
      rw [hname, String.append_empty]
    · rw [hs', buildSecret_lookup_name]
      show some (utf8 ("gke-" ++ specClusterName Unmarshal new.Data)) = _
      rw [hname]
      rfl

/-- C8 at a matched secret with `clusterCA` and an unknown key but no `kubeconfig`. -/
theorem C8_missing_kubeconfig_witness :
    (∀ err, Effect.printErr err ∉ AddFunc fileEnv sampleUnmarshal alternating
        noKubeconfigSecret) ∧
      built (AddFunc fileEnv sampleUnmarshal alternating noKubeconfigSecret) ≠ [] ∧
      ∃ st : Locals,
        (∀ i, dataLoop sampleUnmarshal (alternating i noKubeconfigSecret.Data) {} = .ok st) ∧
        st.argoConfig.AuthConfig.ClusterName = "" ∧
        argoClusterName st.argoConfig = "gke-" ∧
        ∀ s ∈ built (AddFunc fileEnv sampleUnmarshal alternating noKubeconfigSecret),
          s = buildSecret fileEnv st.argoConfig st.server ∧
          s.ObjectMeta.Name = namespace_ fileEnv ++ "-" ∧
          s.Data.lookup "name" = some (utf8 "gke-") :=
  C8_missing_kubeconfig fileEnv sampleUnmarshal alternating noKubeconfigSecret
    ⟨⟨"GKECluster", "cluster-e"⟩, by decide, rfl⟩ (by decide) VisitsAll_alternating rfl

/-- C9: `namespace()` returns the value of `POD_NAMESPACE` whenever the variable is set
(the empty string included, nothing trimmed); otherwise the trimmed content of the
service-account file when the file can be read and the trimmed content is not empty;
otherwise `default`.  The result is never empty when `POD_NAMESPACE` is unset.  The
trimmed content is the file content without its leading and trailing white space. -/
theorem C9_namespace_resolution :
    (∀ (v : String) (file : Option String),
        namespace_ { POD_NAMESPACE := some v, serviceAccountNamespace := file } = v) ∧
      (∀ data : String, TrimSpace data ≠ "" →
        namespace_ { POD_NAMESPACE := none, serviceAccountNamespace := some data } =
          TrimSpace data) ∧
      (∀ data : String, TrimSpace data = "" →
        namespace_ { POD_NAMESPACE := none, serviceAccountNamespace := some data } =
          "default") ∧
      namespace_ { POD_NAMESPACE := none, serviceAccountNamespace := none } = "default" ∧
      (∀ file : Option String,
        namespace_ { POD_NAMESPACE := none, serviceAccountNamespace := file } ≠ "") ∧
      (∀ data : String, ∃ pre suf : List Char,
        data.data = pre ++ (TrimSpace data).data ++ suf ∧
        (∀ c ∈ pre, isSpace c = true) ∧ (∀ c ∈ suf, isSpace c = true) ∧
        (∀ c, (TrimSpace data).data.head? = some c → isSpace c = false) ∧
        (∀ c, (TrimSpace data).data.getLast? = some c → isSpace c = false)) := by
  have hpos : ∀ data : String, TrimSpace data ≠ "" →
      namespace_ { POD_NAMESPACE := none, serviceAccountNamespace := some data } =
        TrimSpace data := by
    intro data h
    simp only [namespace_, length_pos_of_ne_empty _ h, if_true]
  have hzero : ∀ data : String, TrimSpace data = "" →
      namespace_ { POD_NAMESPACE := none, serviceAccountNamespace := some data } =
        "default" := by
    intro data h
    simp only [namespace_, h]
    rfl
  refine ⟨fun v file => rfl, hpos, hzero, rfl, ?_, TrimSpace_spec⟩
  intro file
  cases file with
  | none => exact default_ne_empty
  | some data =>
    by_cases h : TrimSpace data = ""
    · rw [hzero data h]
      exact default_ne_empty
    · rw [hpos data h]
      exact h

/-- C9 at concrete surroundings: `POD_NAMESPACE` set to the empty string and to a padded
value, a file with padded content, a file with white space only, and nothing at all. -/
theorem C9_namespace_resolution_witness :
    namespace_ { POD_NAMESPACE := some "", serviceAccountNamespace := some "team-a" } = "" ∧
      namespace_ { POD_NAMESPACE := some " ns ", serviceAccountNamespace := none } = " ns " ∧
      (TrimSpace "  team-a\n" = "team-a" ∧ namespace_ fileEnv = TrimSpace "  team-a\n") ∧
      namespace_ { POD_NAMESPACE := none, serviceAccountNamespace := some " \t\n" } =
        "default" ∧
      namespace_ { POD_NAMESPACE := none, serviceAccountNamespace := none } = "default" ∧
      namespace_ fileEnv ≠ "" :=
  ⟨C9_namespace_resolution.1 "" (some "team-a"),
   C9_namespace_resolution.1 " ns " none,
   ⟨by decide, C9_namespace_resolution.2.1 "  team-a\n" (by decide)⟩,
   C9_namespace_resolution.2.2.1 " \t\n" (by decide),
   C9_namespace_resolution.2.2.2.1,
   C9_namespace_resolution.2.2.2.2.1 (some "  team-a\n")⟩

/-- C10: the handler does not stop at the first matching owner reference.  When the
payload's `kubeconfig` is absent or decodes, the records it builds are exactly as many as
there are owner references of kind `GKECluster`, all equal to the one record determined by
the surroundings and the payload (no owner name enters it); one record is built exactly
when there is exactly one matching owner reference. -/
theorem C10_one_record_per_matching_owner (env : Env)
    (Unmarshal : Bytes → Except String KubeConfig)
    (rangeOrder : Nat → List (String × Bytes) → List (String × Bytes)) (new : Secret)
    (hd : DistinctKeys new.Data) (hv : VisitsAll rangeOrder)
    (hk : KubeconfigAbsentOrDecodes Unmarshal new.Data) :
    built (AddFunc env Unmarshal rangeOrder new) =
        List.replicate (matchCount new)
          (buildSecret env (specConfig Unmarshal new.Data) (specServer new.Data)) ∧
      (built (AddFunc env Unmarshal rangeOrder new)).length = matchCount new ∧
      ((built (AddFunc env Unmarshal rangeOrder new)).length = 1 ↔ matchCount new = 1) := by
  have hst := loopResult_of_decodes Unmarshal new.Data hk
  obtain ⟨hb, _⟩ := AddFunc_ok env Unmarshal rangeOrder new hd hv _ hst
  have hlen : (built (AddFunc env Unmarshal rangeOrder new)).length = matchCount new := by
    rw [hb, List.length_replicate]
  exact ⟨hb, hlen, by rw [hlen]⟩

/-- C10 at a secret with two owners of kind `GKECluster` around one of another kind: two
equal records are built. -/
theorem C10_one_record_per_matching_owner_witness :
    matchCount twoOwnersSecret = 2 ∧
      (built (AddFunc {} sampleUnmarshal alternating twoOwnersSecret) =
          List.replicate (matchCount twoOwnersSecret)
            (buildSecret {} (specConfig sampleUnmarshal twoOwnersSecret.Data)
              (specServer twoOwnersSecret.Data)) ∧
        (built (AddFunc {} sampleUnmarshal alternating twoOwnersSecret)).length =
          matchCount twoOwnersSecret ∧
        ((built (AddFunc {} sampleUnmarshal alternating twoOwnersSecret)).length = 1 ↔
          matchCount twoOwnersSecret = 1)) :=
  ⟨by decide,
   C10_one_record_per_matching_owner {} sampleUnmarshal alternating twoOwnersSecret
     (by decide) VisitsAll_alternating
     (Or.inr ⟨prodYaml, { CurrentContext := "prod" }, rfl, rfl⟩)⟩

end ArgoSync
